import Mathlib

/-
Shallow embedding of the Device Trust and Release-Update Verification
subsystem of the bayareadiscounts-android repository, translated from
src/utils/updateChecker.ts and src/utils/appIntegrity.ts.

Strings are manipulated through their underlying character lists; the
JavaScript number conversions used by the source (Number, parseInt) are
modelled as partial functions into Option Int, where none plays the role
of NaN.
-/

/-- Numeric value of a list of decimal digit characters, most significant
digit first (codepoint arithmetic, matching how a decimal string denotes
a number). -/
def digitsToNat (ds : List Char) : Nat :=
  ds.foldl (fun a c => a * 10 + (c.toNat - 48)) 0

/-- Decimal digit characters of a natural number, most significant first.
This is the mathematical content of Nat.repr, which models the
JavaScript Number.prototype.toString used by the source when persisting
Date.now(). -/
def reprChars (n : Nat) : List Char :=
  if n < 10 then [Nat.digitChar n] else reprChars (n / 10) ++ [Nat.digitChar (n % 10)]
termination_by n
decreasing_by exact Nat.div_lt_self (by omega) (by omega)

/-- Longest run of decimal digit characters at the front of a list,
as consumed by JavaScript parseInt. -/
def leadingDigits (cs : List Char) : List Char := cs.takeWhile Char.isDigit

/-- Model of JavaScript parseInt(s, 10): skip leading whitespace, accept an
optional sign, then read the longest run of decimal digits; none models the
NaN produced when no digit is found. -/
def jsParseIntChars (cs0 : List Char) : Option Int :=
  match cs0.dropWhile Char.isWhitespace with
  | [] => none
  | c :: rest =>
    if c = '-' then
      if leadingDigits rest = [] then none
      else some (-(digitsToNat (leadingDigits rest) : Int))
    else if c = '+' then
      if leadingDigits rest = [] then none
      else some ((digitsToNat (leadingDigits rest) : Int))
    else
      if leadingDigits (c :: rest) = [] then none
      else some ((digitsToNat (leadingDigits (c :: rest)) : Int))

/-- JavaScript parseInt(s, 10) on a string. -/
def jsParseInt (s : String) : Option Int := jsParseIntChars s.data

/-- Both-ends whitespace trim, as JavaScript Number performs before
parsing. -/
def trimChars (cs : List Char) : List Char :=
  ((cs.dropWhile Char.isWhitespace).reverse.dropWhile Char.isWhitespace).reverse

/-- Model of JavaScript Number(s) restricted to the integral strings the
version components use: trim whitespace, map the empty string to 0, accept
an optionally signed all-digit string, and produce none (NaN) otherwise. -/
def jsNumberChars (cs0 : List Char) : Option Int :=
  match trimChars cs0 with
  | [] => some 0
  | c :: rest =>
    if c = '-' then
      if rest ≠ [] ∧ rest.all Char.isDigit then some (-(digitsToNat rest : Int)) else none
    else if c = '+' then
      if rest ≠ [] ∧ rest.all Char.isDigit then some ((digitsToNat rest : Int)) else none
    else
      if (c :: rest).all Char.isDigit then some ((digitsToNat (c :: rest) : Int)) else none

/-- JavaScript String.prototype.split with separator "." on a character
list: every occurrence of the dot separates, empty pieces are kept. -/
def splitDot : List Char → List (List Char)
  | [] => [[]]
  | c :: rest =>
    match splitDot rest with
    | [] => [[]]
    | p :: ps => if c = '.' then [] :: p :: ps else (c :: p) :: ps

/-- The replace(/^v/, "") of compareVersions in updateChecker.ts: remove a
single leading lowercase v when present. -/
def stripV (cs : List Char) : List Char :=
  match cs with
  | 'v' :: rest => rest
  | other => other

/-- Truthiness of a JavaScript value of type string or undefined: undefined
and the empty string are falsy. -/
def jsTruthy : Option String → Bool
  | none => false
  | some s => s ≠ ""

/-- The numeric components a version string contributes to compareVersions
in updateChecker.ts: strip the v prefix, split on dots, convert each piece
with Number, and let the OR-with-zero fallback turn NaN into 0. -/
def versionParts (s : String) : List Int :=
  (splitDot (stripV s.data)).map (fun p => (jsNumberChars p).getD 0)

/-- Continuation of the compareVersions loop of updateChecker.ts once the
left component list is exhausted: the left side reads as 0 from there on. -/
def cmpZeros : List Int → Int
  | [] => 0
  | b :: bs => if (0 : Int) > b then 1 else if (0 : Int) < b then -1 else cmpZeros bs

/-- Continuation of the compareVersions loop of updateChecker.ts once the
right component list is exhausted: the right side reads as 0 from there
on. -/
def cmpZerosL : List Int → Int
  | [] => 0
  | a :: as => if a > 0 then 1 else if a < 0 then -1 else cmpZerosL as

/-- The comparison loop of compareVersions in updateChecker.ts: walk both
component lists to the longer length, indexing past the end yields 0 via
the OR-with-zero fallback, and the first strict inequality decides. -/
def cmpParts : List Int → List Int → Int
  | [], bs => cmpZeros bs
  | a :: as, [] => if a > 0 then 1 else if a < 0 then -1 else cmpZerosL as
  | a :: as, b :: bs =>
    if a > b then 1 else if a < b then -1 else cmpParts as bs

/-- compareVersions from updateChecker.ts: 1 if a is the later version,
-1 if b is, 0 when they compare equal. -/
def compareVersions (a b : String) : Int :=
  cmpParts (versionParts a) (versionParts b)

/-- Modelled from the spec, section 4.1: pad a component list with trailing
zeros to the requested length. -/
def padZeros (l : List Int) (n : Nat) : List Int :=
  l ++ List.replicate (n - l.length) 0

/-- Modelled from the spec, section 4.1: component-wise comparison of two
equal-length integer sequences, first strict inequality decides. -/
def lexCompare : List Int → List Int → Int
  | a :: as, b :: bs =>
    if a > b then 1 else if a < b then -1 else lexCompare as bs
  | _, _ => 0

/-- Modelled from the spec, section 4.1: the reference comparator. Strip an
optional leading version-prefix character, split on the dot delimiter,
treat non-numeric components as 0, pad the shorter sequence with trailing
zeros to the longer length, and compare component-wise as integers. -/
def specCompare (a b : String) : Int :=
  let pa := versionParts a
  let pb := versionParts b
  let n := max pa.length pb.length
  lexCompare (padZeros pa n) (padZeros pb n)

theorem cmpParts_nil_left_eq : ∀ as : List Int, cmpParts as [] = cmpZerosL as := by
  intro as
  cases as <;> rfl

theorem cmpParts_nil_right : ∀ bs : List Int,
    cmpParts [] bs = lexCompare (List.replicate bs.length 0) bs := by
  intro bs
  show cmpZeros bs = _
  induction bs with
  | nil => simp [cmpZeros, lexCompare]
  | cons b bs ih =>
    simp only [cmpZeros, lexCompare, List.length_cons, List.replicate, ih]

theorem cmpParts_nil_left : ∀ as : List Int,
    cmpParts as [] = lexCompare as (List.replicate as.length 0) := by
  intro as
  rw [cmpParts_nil_left_eq]
  induction as with
  | nil => simp [cmpZerosL, lexCompare]
  | cons a as ih =>
    simp only [cmpZerosL, lexCompare, List.length_cons, List.replicate, ih]

theorem padZeros_nil (n : Nat) : padZeros [] n = List.replicate n 0 := by
  simp [padZeros]

theorem padZeros_cons (a : Int) (l : List Int) (n : Nat) :
    padZeros (a :: l) (n + 1) = a :: padZeros l n := by
  simp [padZeros, List.replicate]

theorem padZeros_self (l : List Int) : padZeros l l.length = l := by
  simp [padZeros]

theorem cmpParts_eq_lexCompare : ∀ as bs : List Int,
    cmpParts as bs
      = lexCompare (padZeros as (max as.length bs.length))
          (padZeros bs (max as.length bs.length)) := by
  intro as
  induction as with
  | nil =>
    intro bs
    simp only [List.length_nil, Nat.zero_max, padZeros_nil, padZeros_self]
    exact cmpParts_nil_right bs
  | cons a as ih =>
    intro bs
    cases bs with
    | nil =>
      simp only [List.length_nil, Nat.max_zero, padZeros_nil, padZeros_self]
      exact cmpParts_nil_left (a :: as)
    | cons b bs =>
      have hmax : max (a :: as).length (b :: bs).length
          = max as.length bs.length + 1 := by
        simp [Nat.succ_max_succ]
      rw [hmax, padZeros_cons, padZeros_cons]
      simp only [cmpParts, lexCompare, ih bs]

theorem digitChar_facts : ∀ d, d < 10 →
    (Nat.digitChar d).isDigit = true
    ∧ (Nat.digitChar d).toNat - 48 = d
    ∧ (Nat.digitChar d).isWhitespace = false
    ∧ Nat.digitChar d ≠ '-'
    ∧ Nat.digitChar d ≠ '+' := by decide

theorem reprChars_spec : ∀ n : Nat,
    reprChars n ≠ [] ∧ digitsToNat (reprChars n) = n := by
  intro n
  induction n using Nat.strong_induction_on with
  | _ n ih =>
    rw [reprChars]
    by_cases h : n < 10
    · simp only [if_pos h]
      refine ⟨by simp, ?_⟩
      have : ∀ d, d < 10 → digitsToNat [Nat.digitChar d] = d := by decide
      exact this n h
    · simp only [if_neg h]
      have h10 : n / 10 < n := Nat.div_lt_self (by omega) (by omega)
      obtain ⟨hne, hval⟩ := ih (n / 10) h10
      refine ⟨by simp, ?_⟩
      rw [digitsToNat, List.foldl_append]
      show List.foldl _ (digitsToNat (reprChars (n / 10))) _ = n
      simp only [List.foldl, hval]
      rw [(digitChar_facts (n % 10) (Nat.mod_lt _ (by omega))).2.1]
      omega

theorem mem_reprChars : ∀ n : Nat, ∀ c ∈ reprChars n, ∃ d, d < 10 ∧ c = Nat.digitChar d := by
  intro n
  induction n using Nat.strong_induction_on with
  | _ n ih =>
    rw [reprChars]
    by_cases h : n < 10
    · simp only [if_pos h]
      intro c hc
      simp only [List.mem_singleton] at hc
      exact ⟨n, h, hc⟩
    · simp only [if_neg h]
      intro c hc
      rcases List.mem_append.mp hc with hc1 | hc2
      · exact ih (n / 10) (Nat.div_lt_self (by omega) (by omega)) c hc1
      · simp only [List.mem_singleton] at hc2
        exact ⟨n % 10, Nat.mod_lt _ (by omega), hc2⟩

theorem toDigitsCore_eq_reprChars : ∀ (fuel n : Nat) (ds : List Char), n < fuel →
    Nat.toDigitsCore 10 fuel n ds = reprChars n ++ ds := by
  intro fuel
  induction fuel with
  | zero => intro n ds h; omega
  | succ f ih =>
    intro n ds h
    rw [Nat.toDigitsCore]
    by_cases h0 : n / 10 = 0
    · simp only [h0, if_pos rfl]
      rw [reprChars]
      have : n < 10 := by omega
      simp [this, Nat.mod_eq_of_lt this]
    · simp only [if_neg h0]
      have hge : 10 ≤ n := by
        by_contra hc
        exact h0 (Nat.div_eq_of_lt (by omega))
      have hlt : n / 10 < n := Nat.div_lt_self (by omega) (by omega)
      rw [ih (n / 10) _ (by omega)]
      conv_rhs => rw [reprChars]
      have hn : ¬ n < 10 := by omega
      simp [hn, List.append_assoc]

theorem repr_eq_reprChars (n : Nat) : Nat.repr n = String.mk (reprChars n) := by
  show String.mk (Nat.toDigitsCore 10 (n + 1) n []) = _
  rw [toDigitsCore_eq_reprChars (n + 1) n [] (by omega), List.append_nil]

theorem jsParseInt_repr (n : Nat) : jsParseInt (Nat.repr n) = some (n : Int) := by
  rw [repr_eq_reprChars]
  show jsParseIntChars (reprChars n) = some (n : Int)
  have hmem := mem_reprChars n
  have hall : ∀ c ∈ reprChars n, Char.isDigit c = true := by
    intro c hc
    obtain ⟨d, hd, rfl⟩ := hmem c hc
    exact (digitChar_facts d hd).1
  obtain ⟨hne, hval⟩ := reprChars_spec n
  obtain ⟨c, cs, hcons⟩ := List.exists_cons_of_ne_nil hne
  have hcmem : c ∈ reprChars n := by rw [hcons]; exact List.mem_cons_self _ _
  obtain ⟨d, hd, hcd⟩ := hmem c hcmem
  have hdrop : (reprChars n).dropWhile Char.isWhitespace = reprChars n := by
    rw [hcons, List.dropWhile_cons, hcd, (digitChar_facts d hd).2.2.1]
    simp
  have htake : leadingDigits (reprChars n) = reprChars n := by
    rw [leadingDigits, List.takeWhile_eq_self_iff]
    exact hall
  rw [jsParseIntChars, hdrop, hcons]
  have hne1 : c ≠ '-' := by rw [hcd]; exact (digitChar_facts d hd).2.2.2.1
  have hne2 : c ≠ '+' := by rw [hcd]; exact (digitChar_facts d hd).2.2.2.2
  show (if c = '-' then
          if leadingDigits cs = [] then none
          else some (-(digitsToNat (leadingDigits cs) : Int))
        else if c = '+' then
          if leadingDigits cs = [] then none
          else some ((digitsToNat (leadingDigits cs) : Int))
        else
          if leadingDigits (c :: cs) = [] then none
          else some ((digitsToNat (leadingDigits (c :: cs)) : Int)))
      = some (n : Int)
  rw [if_neg hne1, if_neg hne2, ← hcons, htake, if_neg hne, hval]

/-- Result record of integrity verification, the IntegrityResult interface
of appIntegrity.ts; absent optional fields are none. -/
structure IntegrityResult where
  valid : Bool
  deviceIntegrity : Option (List String) := none
  appIntegrity : Option String := none
  error : Option String := none
deriving DecidableEq

/-- The CLOUD_PROJECT_NUMBER constant of appIntegrity.ts. -/
def CLOUD_PROJECT_NUMBER : String := "359306552386"

/-- Behaviour of the platform and of the external calls one integrity flow
can perform: the operating system name, the outcome of
AppIntegrity.prepareIntegrityToken, the outcome of
AppIntegrity.requestIntegrityToken (an exception message, or the token,
where the empty string models a falsy token), and the outcome of the fetch
to the verification endpoint (an exception message, or a status code with
the fallible JSON decoding of the body). -/
structure IntegrityEnv where
  platformOS : String
  prepareOutcome : Except String Unit
  tokenOutcome : Except String String
  verifyResponse : Except String (Nat × Except String IntegrityResult)

/-- initializeIntegrity of appIntegrity.ts, over the module-level
isInitialized flag: result value, new flag value, and how many times the
platform prepareIntegrityToken call ran. -/
def initializeIntegrity (env : IntegrityEnv) (ini : Bool) : Bool × Bool × Nat :=
  if env.platformOS ≠ "android" then (false, ini, 0)
  else if CLOUD_PROJECT_NUMBER = "" then (false, ini, 0)
  else if ini then (true, ini, 0)
  else
    match env.prepareOutcome with
    | .ok _ => (true, true, 1)
    | .error _ => (false, ini, 1)

/-- verifyAppIntegrity of appIntegrity.ts: resulting IntegrityResult and new
value of the isInitialized flag. Non-Android platforms short-circuit to a
plain valid result; initialization failure, a falsy token, a thrown fetch, a
non-2xx status, and a body that fails to decode each produce an invalid
result carrying an error message; a decoded 2xx body is returned verbatim. -/
def verifyAppIntegrity (env : IntegrityEnv) (ini : Bool) : IntegrityResult × Bool :=
  if env.platformOS ≠ "android" then ({ valid := true }, ini)
  else
    let initRes := if ini then (true, ini, 0) else initializeIntegrity env ini
    if initRes.1 = false then
      ({ valid := false, error := some "Integrity not initialized" }, initRes.2.1)
    else
      match env.tokenOutcome with
      | .error e => ({ valid := false, error := some e }, initRes.2.1)
      | .ok token =>
        if token = "" then
          ({ valid := false, error := some "No integrity token received" }, initRes.2.1)
        else
          match env.verifyResponse with
          | .error e => ({ valid := false, error := some e }, initRes.2.1)
          | .ok (status, body) =>
            if ¬ (200 ≤ status ∧ status < 300) then
              ({ valid := false,
                 error := some ("Verification failed: " ++ toString status) }, initRes.2.1)
            else
              match body with
              | .error e => ({ valid := false, error := some e }, initRes.2.1)
              | .ok r => (r, initRes.2.1)

/-- isGenuineEnvironment of appIntegrity.ts: a truthy error on the
verification result is absorbed fail-open into true; otherwise the valid
field decides. -/
def isGenuineEnvironment (env : IntegrityEnv) (ini : Bool) : Bool :=
  let r := (verifyAppIntegrity env ini).1
  if jsTruthy r.error then true else r.valid

/-- The slice of the persisted key-value store updateChecker.ts uses: the
last_update_check and dismissed_version keys. -/
structure Storage where
  lastUpdateCheck : Option String
  dismissedVersion : Option String
deriving DecidableEq

/-- One entry of the assets array of a release. -/
structure ReleaseAsset where
  name : String
  browser_download_url : String
deriving DecidableEq

/-- The GitHubRelease interface of updateChecker.ts. -/
structure GitHubRelease where
  tag_name : String
  name : String
  html_url : String
  body : String
  published_at : String
  assets : List ReleaseAsset
deriving DecidableEq

/-- Value produced by response.json() for the release endpoint: either a
value of the shape the code expects, or a JSON value of another shape, on
which the field accesses of the callers raise a TypeError. -/
inductive ReleaseJson
  | ok (r : GitHubRelease)
  | bad
deriving DecidableEq

/-- Behaviour of the network during fetchLatestRelease: the request either
rejects (the 10 second abort timer fired or transport failed, with an error
message) or resolves to a status code and a fallible JSON body. -/
inductive FetchOutcome
  | abort (msg : String)
  | response (status : Nat) (body : Except String ReleaseJson)

/-- The try block of fetchLatestRelease in updateChecker.ts: a rejected
fetch propagates, a 404 yields null, any other non-2xx status throws, a 2xx
body is decoded and returned. -/
def fetchLatestReleaseTry : FetchOutcome → Except String (Option ReleaseJson)
  | .abort m => .error m
  | .response status body =>
    if ¬ (200 ≤ status ∧ status < 300) then
      if status = 404 then .ok none
      else .error ("GitHub API error: " ++ toString status)
    else
      match body with
      | .error e => .error e
      | .ok r => .ok (some r)

/-- fetchLatestRelease of updateChecker.ts: the catch logs and absorbs every
exception of the try block into null. -/
def fetchLatestRelease (o : FetchOutcome) : Option ReleaseJson :=
  match fetchLatestReleaseTry o with
  | .ok v => v
  | .error _ => none

/-- The CHECK_INTERVAL constant of updateChecker.ts, 24 hours in epoch
milliseconds. -/
def CHECK_INTERVAL : Nat := 24 * 60 * 60 * 1000

/-- shouldCheckForUpdate of updateChecker.ts at the given current time: due
when no timestamp is persisted (the empty string is falsy and counts as
absent), otherwise when at least the check interval elapsed since the
parsed timestamp; a persisted value that parses to NaN makes the
comparison false. -/
def shouldCheckForUpdate (now : Nat) (s : Storage) : Bool :=
  match s.lastUpdateCheck with
  | none => true
  | some str =>
    if str = "" then true
    else
      match jsParseInt str with
      | none => false
      | some t => decide ((now : Int) - t ≥ (CHECK_INTERVAL : Int))

/-- recordUpdateCheck of updateChecker.ts: unconditionally persist the
string rendering of the current time. -/
def recordUpdateCheck (now : Nat) (s : Storage) : Storage :=
  { s with lastUpdateCheck := some (Nat.repr now) }

/-- isVersionDismissed of updateChecker.ts: strict string equality between
the persisted dismissed version and the argument; an absent record
compares unequal. -/
def isVersionDismissed (version : String) (s : Storage) : Bool :=
  match s.dismissedVersion with
  | none => false
  | some d => d = version

/-- dismissVersion of updateChecker.ts: overwrite the single persisted
dismissed-version record. -/
def dismissVersion (version : String) (s : Storage) : Storage :=
  { s with dismissedVersion := some version }

/-- The throttle predicate of the update flow: the guard of checkForUpdates
runs the body when the force flag is set or shouldCheckForUpdate consents. -/
def isCheckDue (force : Bool) (now : Nat) (s : Storage) : Bool :=
  force || shouldCheckForUpdate now s

/-- Observable steps of one update-check flow, in execution order. -/
inductive UpdEvent
  | recordCheck
  | fetchRelease
  | showPrompt (tag url : String)
deriving DecidableEq

/-- Inputs of one update-check flow: the current time, the version recorded
in app.json, and the behaviour of the release-index fetch. -/
structure UpdateEnv where
  now : Nat
  currentVersion : String
  fetchOutcome : FetchOutcome

/-- String form of the v-prefix strip used on tag names. -/
def stripVStr (s : String) : String := String.mk (stripV s.data)

/-- The download-target selection of updateChecker.ts: the browser download
URL of the first asset whose name ends in .apk, with the release page URL
as the JavaScript OR fallback when no such asset exists or its URL is the
empty string. -/
def selectDownloadUrl (assets : List ReleaseAsset) (htmlUrl : String) : String :=
  match assets.find? (fun a => List.isSuffixOf ".apk".data a.name.data) with
  | some a => if a.browser_download_url = "" then htmlUrl else a.browser_download_url
  | none => htmlUrl

/-- The try block of checkForUpdates in updateChecker.ts, as a transformer
of the persisted state that also reports the emitted event trace and any
exception the block raises (a field access on a malformed release value). -/
def checkForUpdatesAux (force : Bool) (env : UpdateEnv) (s : Storage) :
    Storage × List UpdEvent × Except String Unit :=
  if ¬ isCheckDue force env.now s then (s, [], .ok ())
  else
    let s1 := recordUpdateCheck env.now s
    match fetchLatestRelease env.fetchOutcome with
    | none => (s1, [.recordCheck, .fetchRelease], .ok ())
    | some .bad => (s1, [.recordCheck, .fetchRelease], .error "TypeError")
    | some (.ok r) =>
      if compareVersions r.tag_name env.currentVersion ≤ 0 then
        (s1, [.recordCheck, .fetchRelease], .ok ())
      else if isVersionDismissed r.tag_name s1 then
        (s1, [.recordCheck, .fetchRelease], .ok ())
      else
        (s1, [.recordCheck, .fetchRelease,
              .showPrompt r.tag_name (selectDownloadUrl r.assets r.html_url)],
         .ok ())

/-- checkForUpdates of updateChecker.ts: the catch logs and absorbs every
exception of the try block, failing silently, so the flow always resolves
with its final state and trace. -/
def checkForUpdates (force : Bool) (env : UpdateEnv) (s : Storage) :
    Except String (Storage × List UpdEvent) :=
  match checkForUpdatesAux force env s with
  | (s1, evs, .ok _) => .ok (s1, evs)
  | (s1, evs, .error _) => .ok (s1, evs)

/-- Structured result record of forceCheckForUpdates. -/
structure ForceResult where
  hasUpdate : Bool
  latestVersion : Option String
  downloadUrl : Option String
deriving DecidableEq

/-- forceCheckForUpdates of updateChecker.ts: record the check, fetch, and
compute the structured result; its catch logs and rethrows, so an exception
of the try block (a field access on a malformed release value) propagates
to the caller through the Except component. -/
def forceCheckForUpdates (env : UpdateEnv) (s : Storage) :
    Storage × List UpdEvent × Except String ForceResult :=
  let s1 := recordUpdateCheck env.now s
  match fetchLatestRelease env.fetchOutcome with
  | none => (s1, [.recordCheck, .fetchRelease], .ok ⟨false, none, none⟩)
  | some .bad => (s1, [.recordCheck, .fetchRelease], .error "TypeError")
  | some (.ok r) =>
    (s1, [.recordCheck, .fetchRelease],
     .ok ⟨decide (compareVersions r.tag_name env.currentVersion > 0),
          some (stripVStr r.tag_name),
          some (selectDownloadUrl r.assets r.html_url)⟩)

theorem cmpParts_self : ∀ l : List Int, cmpParts l l = 0 := by
  intro l
  induction l with
  | nil => rfl
  | cons a as ih => simp [cmpParts, lt_irrefl, ih]

theorem cmpZeros_neg_cmpZerosL : ∀ bs : List Int, cmpZeros bs = -cmpZerosL bs := by
  intro bs
  induction bs with
  | nil => rfl
  | cons b bs ih =>
    simp only [cmpZeros, cmpZerosL]
    rcases lt_trichotomy b 0 with h | rfl | h
    · have h1 : (0 : Int) > b := h
      have h2 : ¬ b > (0 : Int) := by omega
      simp [h1, h2, h]
    · simp [ih]
    · have h1 : ¬ (0 : Int) > b := by omega
      have h2 : (0 : Int) < b := h
      simp [h1, h2, h, ih]

theorem cmpParts_antisymm : ∀ as bs : List Int, cmpParts as bs = -cmpParts bs as := by
  intro as
  induction as with
  | nil =>
    intro bs
    show cmpZeros bs = _
    rw [cmpParts_nil_left_eq]
    exact cmpZeros_neg_cmpZerosL bs
  | cons a as ih =>
    intro bs
    cases bs with
    | nil =>
      rw [cmpParts_nil_left_eq]
      show _ = -(cmpZeros (a :: as))
      have h := cmpZeros_neg_cmpZerosL (a :: as)
      omega
    | cons b bs =>
      simp only [cmpParts]
      rcases lt_trichotomy a b with h | rfl | h
      · have h1 : ¬ a > b := by omega
        have h2 : b > a := h
        simp [h1, h2, h]
      · simp [lt_irrefl, ih]
      · have h1 : a > b := h
        have h2 : ¬ b > a := by omega
        simp [h1, h2, h]

/-- C3: compareVersions agrees with the reference algorithm of spec section
4.1 on every pair of version strings (strip an optional leading v, split on
dots, compare component-wise as integers to the longer length with missing
and non-numeric components as 0), and in particular 1.2 equals 1.2.0, the
v prefix is stripped so v2.0.0 exceeds 1.9.9, and components compare
numerically so 1.10.0 exceeds 1.9.0. -/
theorem compareVersions_matches_reference (a b : String) :
    compareVersions a b = specCompare a b
    ∧ compareVersions "1.2" "1.2.0" = 0
    ∧ compareVersions "v2.0.0" "1.9.9" = 1
    ∧ compareVersions "1.10.0" "1.9.0" = 1 := by
  refine ⟨?_, by decide, by decide, by decide⟩
  rw [compareVersions, specCompare]
  exact cmpParts_eq_lexCompare _ _

/-- C4: the comparator is reflexive, comparing every version string equal
to itself, and antisymmetric, swapping the arguments negates the result. -/
theorem compareVersions_refl_antisymm (a b : String) :
    compareVersions a a = 0
    ∧ compareVersions a b = -compareVersions b a := by
  exact ⟨cmpParts_self _, cmpParts_antisymm _ _⟩

/-- Environment in which the verification backend answers 2xx with a body
whose valid field is false and whose error field is the empty string. -/
def integrityEnvEmptyErr : IntegrityEnv :=
  { platformOS := "android"
  , prepareOutcome := .ok ()
  , tokenOutcome := .ok "token"
  , verifyResponse := .ok (200, .ok { valid := false, error := some "" }) }

/-- C1 counterexample: the verification result carries an error field (the
empty string), yet isGenuineEnvironment returns false instead of the
fail-open true the claim requires whenever an error is present; the code
tests the error with JavaScript truthiness, under which the empty string
counts as absent. -/
theorem isGenuineEnvironment_emptyError_cex :
    (verifyAppIntegrity integrityEnvEmptyErr true).1.error = some ""
    ∧ isGenuineEnvironment integrityEnvEmptyErr true = false := by
  exact ⟨rfl, rfl⟩

/-- C1 amended: isGenuineEnvironment returns false exactly when the
verification result has valid false and an error that is absent or empty
(falsy); any truthy (non-empty) error is absorbed fail-open into true; and
on non-Android platforms verifyAppIntegrity returns a plain valid result,
so isGenuineEnvironment returns true there. -/
theorem isGenuineEnvironment_fail_open (env : IntegrityEnv) (ini : Bool) :
    (isGenuineEnvironment env ini = false
      ↔ ((verifyAppIntegrity env ini).1.valid = false
          ∧ jsTruthy (verifyAppIntegrity env ini).1.error = false))
    ∧ (jsTruthy (verifyAppIntegrity env ini).1.error = true
        → isGenuineEnvironment env ini = true)
    ∧ (env.platformOS ≠ "android"
        → (verifyAppIntegrity env ini).1 = { valid := true }
          ∧ isGenuineEnvironment env ini = true) := by
  refine ⟨?_, ?_, ?_⟩
  · rw [isGenuineEnvironment]
    cases h : jsTruthy (verifyAppIntegrity env ini).1.error <;>
      cases hv : (verifyAppIntegrity env ini).1.valid <;> simp [h, hv]
  · intro h
    rw [isGenuineEnvironment]
    simp [h]
  · intro hp
    have hv : (verifyAppIntegrity env ini).1 = { valid := true } := by
      rw [verifyAppIntegrity, if_pos hp]
    refine ⟨hv, ?_⟩
    rw [isGenuineEnvironment, hv]
    rfl

/-- Environment for a non-Android platform. -/
def integrityEnvIos : IntegrityEnv :=
  { platformOS := "ios"
  , prepareOutcome := .ok ()
  , tokenOutcome := .ok "token"
  , verifyResponse := .ok (200, .ok { valid := true }) }

/-- Environment in which the verification backend answers with status
500. -/
def integrityEnv500 : IntegrityEnv :=
  { platformOS := "android"
  , prepareOutcome := .ok ()
  , tokenOutcome := .ok "token"
  , verifyResponse := .ok (500, .ok { valid := true }) }

/-- Witness for the amended C1: a 500 from the backend produces a truthy
error and is absorbed into true, and a non-Android platform yields true. -/
theorem isGenuineEnvironment_fail_open_witness :
    isGenuineEnvironment integrityEnv500 true = true
    ∧ isGenuineEnvironment integrityEnvIos true = true := by
  constructor
  · exact (isGenuineEnvironment_fail_open integrityEnv500 true).2.1 (by rfl)
  · exact ((isGenuineEnvironment_fail_open integrityEnvIos true).2.2 (by decide)).2

/-- Environment in which the platform prepareIntegrityToken call throws. -/
def integrityEnvPrepareFail : IntegrityEnv :=
  { platformOS := "android"
  , prepareOutcome := .error "prepare failed"
  , tokenOutcome := .ok "token"
  , verifyResponse := .ok (200, .ok { valid := true }) }

/-- C9 counterexample: when the platform prepare call throws, a first
initializer call performs one platform call, fails, and leaves the flag
unset, so an immediately following call performs a second platform call;
two successive calls hence perform two platform-level calls, not at most
one. -/
theorem initializeIntegrity_retry_cex :
    (initializeIntegrity integrityEnvPrepareFail false).2.2
      + (initializeIntegrity integrityEnvPrepareFail
          (initializeIntegrity integrityEnvPrepareFail false).2.1).2.2 = 2 := by
  rfl

/-- C9 amended: initialization is idempotent once it has succeeded. If a
first call returns success, an immediately following call returns success
without performing any platform-level call, so the two calls together
perform at most one; and with the flag already set on Android every call
returns success with zero platform calls. -/
theorem initializeIntegrity_idempotent (env : IntegrityEnv) :
    ((initializeIntegrity env false).1 = true
      → (initializeIntegrity env (initializeIntegrity env false).2.1).1 = true
        ∧ (initializeIntegrity env (initializeIntegrity env false).2.1).2.2 = 0
        ∧ (initializeIntegrity env false).2.2
            + (initializeIntegrity env (initializeIntegrity env false).2.1).2.2 ≤ 1)
    ∧ (env.platformOS = "android"
        → initializeIntegrity env true = (true, true, 0)) := by
  constructor
  · intro h1
    by_cases hp : env.platformOS ≠ "android"
    · rw [initializeIntegrity, if_pos hp] at h1
      exact absurd h1 (by simp)
    · have hand : env.platformOS = "android" := by
        by_contra hc
        exact hp hc
      have hproj : ¬ (CLOUD_PROJECT_NUMBER = "") := by
        rw [CLOUD_PROJECT_NUMBER]
        intro hc
        exact absurd hc (by simp)
      cases hprep : env.prepareOutcome with
      | ok u =>
        have hfirst : initializeIntegrity env false = (true, true, 1) := by
          rw [initializeIntegrity, if_neg hp, if_neg hproj, if_neg (by simp), hprep]
        rw [hfirst]
        have hsecond : initializeIntegrity env true = (true, true, 0) := by
          rw [initializeIntegrity, if_neg hp, if_neg hproj, if_pos rfl]
        rw [hsecond]
        exact ⟨rfl, rfl, by simp [hfirst]⟩
      | error e =>
        have hfirst : initializeIntegrity env false = (false, false, 1) := by
          rw [initializeIntegrity, if_neg hp, if_neg hproj, if_neg (by simp), hprep]
        rw [hfirst] at h1
        exact absurd h1 (by simp)
  · intro hand
    have hp : ¬ env.platformOS ≠ "android" := by simp [hand]
    have hproj : ¬ (CLOUD_PROJECT_NUMBER = "") := by
      rw [CLOUD_PROJECT_NUMBER]
      intro hc
      exact absurd hc (by simp)
    rw [initializeIntegrity, if_neg hp, if_neg hproj, if_pos rfl]

/-- Environment in which everything on the integrity path succeeds. -/
def integrityEnvOk : IntegrityEnv :=
  { platformOS := "android"
  , prepareOutcome := .ok ()
  , tokenOutcome := .ok "token"
  , verifyResponse := .ok (200, .ok { valid := true }) }

/-- Witness for the amended C9: with a succeeding platform call, a first
call succeeds, the immediately following call succeeds with zero platform
calls, and the flag-set case returns success immediately. -/
theorem initializeIntegrity_idempotent_witness :
    ((initializeIntegrity integrityEnvOk
        (initializeIntegrity integrityEnvOk false).2.1).1 = true
      ∧ (initializeIntegrity integrityEnvOk
          (initializeIntegrity integrityEnvOk false).2.1).2.2 = 0
      ∧ (initializeIntegrity integrityEnvOk false).2.2
          + (initializeIntegrity integrityEnvOk
              (initializeIntegrity integrityEnvOk false).2.1).2.2 ≤ 1)
    ∧ initializeIntegrity integrityEnvOk true = (true, true, 0) := by
  exact ⟨(initializeIntegrity_idempotent integrityEnvOk).1 (by rfl),
         (initializeIntegrity_idempotent integrityEnvOk).2 (by rfl)⟩

theorem repr_ne_empty (n : Nat) : Nat.repr n ≠ "" := by
  rw [repr_eq_reprChars]
  intro hc
  exact (reprChars_spec n).1 (congrArg String.data hc)

/-- C5: a check is due whenever the force flag is set; whenever no
timestamp is persisted; and whenever the persisted timestamp is at least
the 24 hour interval in the past; and immediately after
recordUpdateCheck, an unforced call finds the check not due. -/
theorem isCheckDue_spec (force : Bool) (now t : Nat) (s : Storage) :
    isCheckDue true now s = true
    ∧ (s.lastUpdateCheck = none → isCheckDue force now s = true)
    ∧ (s.lastUpdateCheck = some (Nat.repr t)
        → (now : Int) - t ≥ (CHECK_INTERVAL : Int)
        → isCheckDue force now s = true)
    ∧ isCheckDue false now (recordUpdateCheck now s) = false := by
  refine ⟨by simp [isCheckDue], ?_, ?_, ?_⟩
  · intro h
    simp [isCheckDue, shouldCheckForUpdate, h]
  · intro h h2
    have hdec : decide ((now : Int) - (t : Nat) ≥ (CHECK_INTERVAL : Int)) = true :=
      decide_eq_true h2
    simp [isCheckDue, shouldCheckForUpdate, h, repr_ne_empty, jsParseInt_repr, hdec]
  · simp only [isCheckDue, shouldCheckForUpdate, recordUpdateCheck, Bool.false_or]
    rw [if_neg (repr_ne_empty now), jsParseInt_repr]
    simp only [decide_eq_false_iff_not, CHECK_INTERVAL]
    omega

/-- Storage state with nothing persisted. -/
def emptyStorage : Storage := { lastUpdateCheck := none, dismissedVersion := none }

/-- Witness for C5: at a concrete time one interval after a persisted
timestamp the check is due, and immediately after recordUpdateCheck it is
not. -/
theorem isCheckDue_spec_witness :
    isCheckDue false 86400000 { lastUpdateCheck := some (Nat.repr 0), dismissedVersion := none } = true
    ∧ isCheckDue false 86400000
        (recordUpdateCheck 86400000
          { lastUpdateCheck := some (Nat.repr 0), dismissedVersion := none }) = false := by
  constructor
  · exact (isCheckDue_spec false 86400000 0
      { lastUpdateCheck := some (Nat.repr 0), dismissedVersion := none }).2.2.1 rfl (by decide)
  · exact (isCheckDue_spec false 86400000 0
      { lastUpdateCheck := some (Nat.repr 0), dismissedVersion := none }).2.2.2

/-- C7: a version counts as dismissed exactly when the persisted record
equals it as a raw string; nothing is dismissed while no record exists;
dismissing a version makes exactly that string dismissed and no other; and
dismissing overwrites the single record. -/
theorem isVersionDismissed_spec (v w : String) (s : Storage) (lc : Option String) :
    isVersionDismissed v { lastUpdateCheck := lc, dismissedVersion := none } = false
    ∧ isVersionDismissed v (dismissVersion v s) = true
    ∧ (w ≠ v → isVersionDismissed w (dismissVersion v s) = false)
    ∧ (isVersionDismissed v s = true ↔ s.dismissedVersion = some v)
    ∧ dismissVersion w (dismissVersion v s) = dismissVersion w s := by
  refine ⟨rfl, by simp [isVersionDismissed, dismissVersion], ?_, ?_, rfl⟩
  · intro h
    simp only [isVersionDismissed, dismissVersion]
    simp only [decide_eq_false_iff_not]
    exact fun hh => h hh.symm
  · cases hd : s.dismissedVersion with
    | none => simp [isVersionDismissed, hd]
    | some d => simp [isVersionDismissed, hd, eq_comm]

/-- Witness for C7, the exact-tag scenario of the spec: v1.2.0 is not
dismissed in the empty state, is dismissed right after dismissing it, and
the unprefixed 1.2.0 stays undismissed. -/
theorem isVersionDismissed_spec_witness :
    isVersionDismissed "v1.2.0" { lastUpdateCheck := none, dismissedVersion := none } = false
    ∧ isVersionDismissed "v1.2.0" (dismissVersion "v1.2.0" emptyStorage) = true
    ∧ isVersionDismissed "1.2.0" (dismissVersion "v1.2.0" emptyStorage) = false := by
  refine ⟨(isVersionDismissed_spec "v1.2.0" "1.2.0" emptyStorage none).1,
          (isVersionDismissed_spec "v1.2.0" "1.2.0" emptyStorage none).2.1,
          (isVersionDismissed_spec "v1.2.0" "1.2.0" emptyStorage none).2.2.1 (by decide)⟩

/-- C8: fetchLatestRelease never lets an exception escape: every error of
its try block is absorbed into none; a rejected request (the 10 second
abort or a transport failure) yields none; a 404 yields none; any other
non-2xx status yields none; and a release value is returned only from a
2xx response whose body decoded successfully. -/
theorem fetchLatestRelease_fail_closed (o : FetchOutcome) :
    (∀ e, fetchLatestReleaseTry o = .error e → fetchLatestRelease o = none)
    ∧ (∀ m, o = .abort m → fetchLatestRelease o = none)
    ∧ (∀ b, o = .response 404 b → fetchLatestRelease o = none)
    ∧ (∀ st b, o = .response st b → ¬ (200 ≤ st ∧ st < 300)
        → fetchLatestRelease o = none)
    ∧ (∀ r, fetchLatestRelease o = some r
        → ∃ st, o = .response st (.ok r) ∧ 200 ≤ st ∧ st < 300) := by
  refine ⟨?_, ?_, ?_, ?_, ?_⟩
  · intro e h
    simp [fetchLatestRelease, h]
  · intro m h
    subst h
    rfl
  · intro b h
    subst h
    rfl
  · intro st b h hst
    subst h
    by_cases h4 : st = 404
    · subst h4
      rfl
    · simp [fetchLatestRelease, fetchLatestReleaseTry, hst, h4]
  · intro r h
    cases o with
    | abort m => exact absurd h (by simp [fetchLatestRelease, fetchLatestReleaseTry])
    | response st b =>
      by_cases hst : 200 ≤ st ∧ st < 300
      · cases b with
        | error e =>
          exact absurd h (by simp [fetchLatestRelease, fetchLatestReleaseTry, hst])
        | ok rj =>
          have : rj = r := by
            have hh : some rj = some r := by
              simpa [fetchLatestRelease, fetchLatestReleaseTry, hst] using h
            exact Option.some.inj hh
          subst this
          exact ⟨st, rfl, hst.1, hst.2⟩
      · by_cases h4 : st = 404
        · subst h4
          exact absurd h (by simp [fetchLatestRelease, fetchLatestReleaseTry])
        · exact absurd h (by simp [fetchLatestRelease, fetchLatestReleaseTry, hst, h4])

/-- Witness for C8: a timed-out request and a 404 each come back as none,
and a successful response hands back its release. -/
theorem fetchLatestRelease_fail_closed_witness :
    fetchLatestRelease (.abort "Aborted") = none
    ∧ fetchLatestRelease (.response 404 (.error "no body")) = none
    ∧ fetchLatestRelease (.response 500 (.ok .bad)) = none := by
  refine ⟨(fetchLatestRelease_fail_closed (.abort "Aborted")).2.1 "Aborted" rfl,
          (fetchLatestRelease_fail_closed (.response 404 (.error "no body"))).2.2.1
            (.error "no body") rfl,
          (fetchLatestRelease_fail_closed (.response 500 (.ok .bad))).2.2.2.1
            500 (.ok .bad) rfl (by omega)⟩

/-- Environment in which the release endpoint answers 2xx with a JSON body
that is not a well-formed release object. -/
def updateEnvBadBody : UpdateEnv :=
  { now := 1000, currentVersion := "1.0.0"
  , fetchOutcome := .response 200 (.ok .bad) }

/-- C2 counterexample: with a 2xx response whose JSON body is not a
well-formed release, the try block of forceCheckForUpdates raises a
TypeError on the tag_name field access and its catch rethrows, so the
error propagates to the caller. -/
theorem forceCheckForUpdates_throws_cex :
    (forceCheckForUpdates updateEnvBadBody emptyStorage).2.2 = .error "TypeError" := rfl

/-- C2 amended: checkForUpdates absorbs every update-path error and never
propagates one; forceCheckForUpdates absorbs fetch-path errors (a failed or
empty fetch yields a no-update result), but rethrows an error raised while
processing a fetched release, which happens exactly when the fetch handed
back a malformed release body. -/
theorem updateFlows_error_policy (force : Bool) (env : UpdateEnv) (s : Storage) :
    (∀ e, checkForUpdates force env s ≠ Except.error e)
    ∧ ((∃ r, (forceCheckForUpdates env s).2.2 = Except.ok r)
        ↔ fetchLatestRelease env.fetchOutcome ≠ some ReleaseJson.bad) := by
  constructor
  · intro e
    rcases h : checkForUpdatesAux force env s with ⟨s1, evs, r⟩
    cases r <;> simp [checkForUpdates, h]
  · cases hf : fetchLatestRelease env.fetchOutcome with
    | none => simp [forceCheckForUpdates, hf]
    | some rj =>
      cases rj with
      | ok r => simp [forceCheckForUpdates, hf]
      | bad => simp [forceCheckForUpdates, hf]

/-- Release used in the end-to-end scenario of the spec: tag v1.1.0 with a
single apk asset. -/
def releaseA : GitHubRelease :=
  { tag_name := "v1.1.0"
  , name := "Release 1.1.0"
  , html_url := "https://example.com/releases/v1.1.0"
  , body := "notes"
  , published_at := "2025-01-01T00:00:00Z"
  , assets := [{ name := "app-release.apk"
               , browser_download_url := "https://example.com/app-release.apk" }] }

/-- Environment in which the release endpoint successfully serves
releaseA while the running app version is 1.0.0. -/
def updateEnvA : UpdateEnv :=
  { now := 42, currentVersion := "1.0.0"
  , fetchOutcome := .response 200 (.ok (.ok releaseA)) }

/-- Witness for the amended C2: checkForUpdates does not propagate the
TypeError of a malformed body, and a well-formed fetch leaves
forceCheckForUpdates with a successful result. -/
theorem updateFlows_error_policy_witness :
    checkForUpdates false updateEnvBadBody emptyStorage ≠ Except.error "TypeError"
    ∧ (∃ r, (forceCheckForUpdates updateEnvA emptyStorage).2.2 = Except.ok r) := by
  constructor
  · exact (updateFlows_error_policy false updateEnvBadBody emptyStorage).1 "TypeError"
  · exact (updateFlows_error_policy false updateEnvA emptyStorage).2.mpr (by
      intro h
      rw [show fetchLatestRelease updateEnvA.fetchOutcome
            = some (.ok releaseA) from rfl] at h
      cases Option.some.inj h)

theorem checkForUpdates_ok (force : Bool) (env : UpdateEnv) (s : Storage) :
    checkForUpdates force env s
      = .ok ((checkForUpdatesAux force env s).1, (checkForUpdatesAux force env s).2.1) := by
  rcases h : checkForUpdatesAux force env s with ⟨s1, evs, r⟩
  cases r <;> simp [checkForUpdates, h]

theorem checkForUpdatesAux_notdue (force : Bool) (env : UpdateEnv) (s : Storage)
    (hdue : ¬ isCheckDue force env.now s = true) :
    checkForUpdatesAux force env s = (s, [], .ok ()) := by
  rw [checkForUpdatesAux, if_pos hdue]

theorem checkForUpdatesAux_fetch_none (force : Bool) (env : UpdateEnv) (s : Storage)
    (hdue : isCheckDue force env.now s = true)
    (hf : fetchLatestRelease env.fetchOutcome = none) :
    checkForUpdatesAux force env s
      = (recordUpdateCheck env.now s, [.recordCheck, .fetchRelease], .ok ()) := by
  rw [checkForUpdatesAux, if_neg (by simp [hdue]), hf]

theorem checkForUpdatesAux_due_shape (force : Bool) (env : UpdateEnv) (s : Storage)
    (hdue : isCheckDue force env.now s = true) :
    (checkForUpdatesAux force env s).1 = recordUpdateCheck env.now s
    ∧ ∃ rest, (checkForUpdatesAux force env s).2.1
        = .recordCheck :: .fetchRelease :: rest := by
  cases hf : fetchLatestRelease env.fetchOutcome with
  | none =>
    rw [checkForUpdatesAux_fetch_none force env s hdue hf]
    exact ⟨rfl, [], rfl⟩
  | some rj =>
    cases rj with
    | bad =>
      have he : checkForUpdatesAux force env s
          = (recordUpdateCheck env.now s, [.recordCheck, .fetchRelease],
             .error "TypeError") := by
        rw [checkForUpdatesAux, if_neg (by simp [hdue]), hf]
      rw [he]
      exact ⟨rfl, [], rfl⟩
    | ok r =>
      by_cases hc : compareVersions r.tag_name env.currentVersion ≤ 0
      · have he : checkForUpdatesAux force env s
            = (recordUpdateCheck env.now s, [.recordCheck, .fetchRelease], .ok ()) := by
          rw [checkForUpdatesAux, if_neg (by simp [hdue]), hf]
          show (if compareVersions r.tag_name env.currentVersion ≤ 0 then _ else _) = _
          rw [if_pos hc]
        rw [he]
        exact ⟨rfl, [], rfl⟩
      · by_cases hdis : isVersionDismissed r.tag_name (recordUpdateCheck env.now s) = true
        · have he : checkForUpdatesAux force env s
              = (recordUpdateCheck env.now s, [.recordCheck, .fetchRelease], .ok ()) := by
            rw [checkForUpdatesAux, if_neg (by simp [hdue]), hf]
            show (if compareVersions r.tag_name env.currentVersion ≤ 0 then _ else _) = _
            rw [if_neg hc]
            show (if isVersionDismissed r.tag_name (recordUpdateCheck env.now s) = true
                  then _ else _) = _
            rw [if_pos hdis]
          rw [he]
          exact ⟨rfl, [], rfl⟩
        · have he : checkForUpdatesAux force env s
              = (recordUpdateCheck env.now s,
                 [.recordCheck, .fetchRelease,
                  .showPrompt r.tag_name (selectDownloadUrl r.assets r.html_url)],
                 .ok ()) := by
            rw [checkForUpdatesAux, if_neg (by simp [hdue]), hf]
            show (if compareVersions r.tag_name env.currentVersion ≤ 0 then _ else _) = _
            rw [if_neg hc]
            show (if isVersionDismissed r.tag_name (recordUpdateCheck env.now s) = true
                  then _ else _) = _
            rw [if_neg hdis]
          rw [he]
          exact ⟨rfl, [.showPrompt r.tag_name (selectDownloadUrl r.assets r.html_url)], rfl⟩

/-- C6: whenever an update-check flow reaches the release fetch, the
persisted throttle timestamp has already been overwritten with the current
time: every checkForUpdates trace containing the fetch event starts with
the record event followed by the fetch event and ends in a state whose
timestamp is the current time; forceCheckForUpdates always emits exactly
that prefix and updates the timestamp; and when the release index answers
404, no prompt event occurs, no error surfaces, and the timestamp is still
updated. -/
theorem recordCheck_precedes_fetch (force : Bool) (env : UpdateEnv) (s : Storage) :
    (∀ s1 evs, checkForUpdates force env s = .ok (s1, evs)
      → UpdEvent.fetchRelease ∈ evs
      → (∃ rest, evs = .recordCheck :: .fetchRelease :: rest)
        ∧ s1.lastUpdateCheck = some (Nat.repr env.now))
    ∧ (forceCheckForUpdates env s).2.1 = [.recordCheck, .fetchRelease]
    ∧ (forceCheckForUpdates env s).1.lastUpdateCheck = some (Nat.repr env.now)
    ∧ (∀ b, env.fetchOutcome = .response 404 b
        → (∀ s1 evs, checkForUpdates force env s = .ok (s1, evs)
            → ∀ tg u, UpdEvent.showPrompt tg u ∉ evs)
          ∧ (forceCheckForUpdates env s).2.2 = .ok ⟨false, none, none⟩) := by
  have hforce : (forceCheckForUpdates env s).2.1 = [.recordCheck, .fetchRelease]
      ∧ (forceCheckForUpdates env s).1 = recordUpdateCheck env.now s := by
    cases hf : fetchLatestRelease env.fetchOutcome with
    | none => simp [forceCheckForUpdates, hf]
    | some rj => cases rj <;> simp [forceCheckForUpdates, hf]
  refine ⟨?_, hforce.1, by rw [hforce.2]; rfl, ?_⟩
  · intro s1 evs heq hmem
    rw [checkForUpdates_ok] at heq
    injection heq with hpair
    injection hpair with h1 h2
    subst h1
    subst h2
    by_cases hdue : isCheckDue force env.now s = true
    · obtain ⟨ha, rest, hb⟩ := checkForUpdatesAux_due_shape force env s hdue
      exact ⟨⟨rest, hb⟩, by rw [ha]; rfl⟩
    · rw [checkForUpdatesAux_notdue force env s hdue] at hmem
      exact absurd hmem (by simp)
  · intro b hb
    have hf : fetchLatestRelease env.fetchOutcome = none := by
      rw [hb]
      rfl
    constructor
    · intro s1 evs heq tg u hmem
      rw [checkForUpdates_ok] at heq
      injection heq with hpair
      injection hpair with h1 h2
      subst h1
      subst h2
      by_cases hdue : isCheckDue force env.now s = true
      · rw [checkForUpdatesAux_fetch_none force env s hdue hf] at hmem
        simp at hmem
      · rw [checkForUpdatesAux_notdue force env s hdue] at hmem
        simp at hmem
    · simp [forceCheckForUpdates, hf]

/-- Environment in which the release index answers 404, no releases
published. -/
def updateEnv404 : UpdateEnv :=
  { now := 7, currentVersion := "1.0.0"
  , fetchOutcome := .response 404 (.error "Not Found") }

/-- Witness for C6, at the 404 environment with a forced check: the trace
is exactly record followed by fetch, the timestamp is written, no prompt
occurs, and the forced variant reports no update without error. -/
theorem recordCheck_precedes_fetch_witness :
    ((∃ rest, ([UpdEvent.recordCheck, UpdEvent.fetchRelease] : List UpdEvent)
        = .recordCheck :: .fetchRelease :: rest)
      ∧ (recordUpdateCheck 7 emptyStorage).lastUpdateCheck = some (Nat.repr 7))
    ∧ (forceCheckForUpdates updateEnv404 emptyStorage).2.2 = .ok ⟨false, none, none⟩ := by
  refine ⟨(recordCheck_precedes_fetch true updateEnv404 emptyStorage).1
            (recordUpdateCheck 7 emptyStorage)
            [UpdEvent.recordCheck, UpdEvent.fetchRelease] rfl (by decide),
          ((recordCheck_precedes_fetch true updateEnv404 emptyStorage).2.2.2
            (.error "Not Found") rfl).2⟩

/-- C10: forceCheckForUpdates never consults the dismissal record: whenever
the fetch produced a well-formed release whose tag strictly exceeds the
running version, the result reports an update with the stripped tag and the
selected download URL, independently of any previously dismissed version,
including the fetched tag itself. -/
theorem forceCheck_ignores_dismissal (env : UpdateEnv) (s : Storage) (r : GitHubRelease)
    (hf : fetchLatestRelease env.fetchOutcome = some (.ok r))
    (hgt : compareVersions r.tag_name env.currentVersion > 0) :
    (forceCheckForUpdates env s).2.2
      = .ok { hasUpdate := true
            , latestVersion := some (stripVStr r.tag_name)
            , downloadUrl := some (selectDownloadUrl r.assets r.html_url) }
    ∧ (forceCheckForUpdates env (dismissVersion r.tag_name s)).2.2
      = (forceCheckForUpdates env s).2.2 := by
  have hd : decide (compareVersions r.tag_name env.currentVersion > 0) = true :=
    decide_eq_true hgt
  constructor
  · simp [forceCheckForUpdates, hf, hd]
  · simp [forceCheckForUpdates, hf]

/-- Witness for C10, the spec scenario with the tag itself dismissed:
version 1.0.0 running, v1.1.0 served and previously dismissed, yet the
forced check reports the update with the apk asset URL. -/
theorem forceCheck_ignores_dismissal_witness :
    (forceCheckForUpdates updateEnvA (dismissVersion "v1.1.0" emptyStorage)).2.2
      = .ok { hasUpdate := true
            , latestVersion := some "1.1.0"
            , downloadUrl := some "https://example.com/app-release.apk" } := by
  have h := forceCheck_ignores_dismissal updateEnvA
    (dismissVersion "v1.1.0" emptyStorage) releaseA rfl (by decide)
  rw [h.1]
  rfl
